import Mathlib

/-!
Verification of the credit ledger and bulk image-description pipeline of the
image-describe application.

The development shallowly embeds the database-facing operations of the
application:

* the credit ledger (`deductCredits`, `addCredits` in `src/lib/user.ts`),
* the admin user update (`PATCH` in the admin users route),
* the admin payment processing endpoint
  (`src/app/api/admin/payments/process/route.ts`),
* the three image-description endpoints (`src/app/api/describe/route.ts`,
  `src/app/api/describe/bulk/route.ts`,
  `src/app/api/describe/bulk-with-credits/route.ts`).

The database is a record of association lists mirroring the Prisma schema
(`users`, `credit_transactions`, `payment_requests`).  Every database-writing
operation is compiled to a list of atomic groups of primitive writes
(`List (List DBWrite)`): one group per `prisma.$transaction` call, and one
group per free-standing statement.  This makes both the final state and every
intermediate commit point of an operation observable, which is what the
atomicity and ledger-invariant claims are about.

Endpoint handlers are modelled after the authentication step, with the
resolution of each external Ideogram API call supplied as an oracle bit on the
file (`FileInfo.apiOutcome`); the models additionally emit an event trace
(credit checks, external API calls, credit deductions) so that ordering and
"never reaches the external API" properties can be stated.
-/

namespace ImageDescribe

/-! ## Definitions: data model, ledger operations, endpoint models -/

inductive CreditTransactionType where
  | PURCHASE
  | BONUS
  | IMAGE_DESCRIPTION
  | BULK_DESCRIPTION
  | ADMIN_ADJUSTMENT
deriving DecidableEq, Repr

inductive PaymentStatus where
  | PENDING
  | APPROVED
  | REJECTED
deriving DecidableEq, Repr

inductive PaymentAction where
  | APPROVED
  | REJECTED
deriving DecidableEq, Repr

structure CreditTransaction where
  userId : String
  amount : Int
  type : CreditTransactionType
deriving DecidableEq, Repr

structure PaymentRequestRow where
  id : String
  userId : String
  creditsRequested : Int
  status : PaymentStatus
deriving DecidableEq, Repr

structure DB where
  users : List (String × Int)
  txns : List CreditTransaction
  reqs : List PaymentRequestRow
deriving DecidableEq, Repr

def findU : List (String × Int) → String → Option Int
  | [], _ => none
  | u :: rest, uid => if u.1 = uid then some u.2 else findU rest uid

def setU : List (String × Int) → String → Int → List (String × Int)
  | [], _, _ => []
  | u :: rest, uid, v => if u.1 = uid then (uid, v) :: rest else u :: setU rest uid v

def findReq : List PaymentRequestRow → String → Option PaymentRequestRow
  | [], _ => none
  | r :: rest, rid => if r.id = rid then some r else findReq rest rid

def setReqStatus : List PaymentRequestRow → String → PaymentStatus → List PaymentRequestRow
  | [], _, _ => []
  | r :: rest, rid, s =>
    if r.id = rid then { r with status := s } :: rest else r :: setReqStatus rest rid s

def txnSum (txns : List CreditTransaction) (uid : String) : Int :=
  ((txns.filter (fun t => t.userId = uid)).map (fun t => t.amount)).sum

def ledgerBalanced (db : DB) : Bool :=
  db.users.all (fun u => findU db.users u.1 == some (txnSum db.txns u.1))
  && db.txns.all (fun t => (findU db.users t.userId).isSome)
  && db.reqs.all (fun r => (findU db.users r.userId).isSome)

inductive DBWrite where
  /-- `user.update` setting `credits` to an absolute value. -/
  | setCredits (uid : String) (v : Int)
  /-- `user.update` with `credits: { increment: d }`. -/
  | incCredits (uid : String) (d : Int)
  /-- `creditTransaction.create`. -/
  | insertTxn (t : CreditTransaction)
  /-- `paymentRequest.update` setting `status`. -/
  | setStatus (rid : String) (s : PaymentStatus)
deriving DecidableEq, Repr

def applyWrite (db : DB) : DBWrite → DB
  | .setCredits uid v => { db with users := setU db.users uid v }
  | .incCredits uid d =>
    match findU db.users uid with
    | some c => { db with users := setU db.users uid (c + d) }
    | none => db
  | .insertTxn t => { db with txns := db.txns ++ [t] }
  | .setStatus rid s => { db with reqs := setReqStatus db.reqs rid s }

def applyGroup (db : DB) (g : List DBWrite) : DB :=
  g.foldl applyWrite db

def applyGroups (db : DB) (gs : List (List DBWrite)) : DB :=
  gs.foldl applyGroup db

def deductCredits (db : DB) (userId : String) (amount : Int) :
    Except String (List (List DBWrite)) :=
  match findU db.users userId with
  | none => .error "Insufficient credits"
  | some credits =>
    if credits < amount then .error "Insufficient credits"
    else .ok [[.setCredits userId (credits - amount),
               .insertTxn ⟨userId, -amount, .IMAGE_DESCRIPTION⟩]]

def addCredits (db : DB) (userId : String) (amount : Int)
    (ty : CreditTransactionType) : Except String (List (List DBWrite)) :=
  match findU db.users userId with
  | none => .error "User not found"
  | some credits =>
    .ok [[.setCredits userId (credits + amount),
          .insertTxn ⟨userId, amount, ty⟩]]

def processPayment (db : DB) (requestId : String) (action : PaymentAction) :
    Except String (List (List DBWrite)) :=
  match findReq db.reqs requestId with
  | none => .error "Payment request not found"
  | some pr =>
    if pr.status ≠ PaymentStatus.PENDING then
      .error "Payment request has already been processed"
    else
      match action with
      | .APPROVED =>
        .ok [[.setStatus requestId .APPROVED,
              .incCredits pr.userId pr.creditsRequested,
              .insertTxn ⟨pr.userId, pr.creditsRequested, .PURCHASE⟩]]
      | .REJECTED =>
        .ok [[.setStatus requestId .REJECTED]]

def adminUpdateUserCredits (db : DB) (userId : String) (credits? : Option Int) :
    Except String (List (List DBWrite)) :=
  match findU db.users userId with
  | none => .error "User not found"
  | some current =>
    match credits? with
    | some c =>
      if c ≠ current then
        .ok [[.insertTxn ⟨userId, c - current, .ADMIN_ADJUSTMENT⟩],
             [.setCredits userId c]]
      else .ok []
    | none => .ok []

inductive CreditOp where
  | deduct (userId : String) (amount : Int)
  | add (userId : String) (amount : Int) (ty : CreditTransactionType)
  | payment (requestId : String) (action : PaymentAction)
  | adminAdjust (userId : String) (credits? : Option Int)
deriving DecidableEq, Repr

def compileOp (db : DB) : CreditOp → Except String (List (List DBWrite))
  | .deduct uid a => deductCredits db uid a
  | .add uid a ty => addCredits db uid a ty
  | .payment rid act => processPayment db rid act
  | .adminAdjust uid c? => adminUpdateUserCredits db uid c?

def runOp (db : DB) (op : CreditOp) : DB :=
  match compileOp db op with
  | .error _ => db
  | .ok gs => applyGroups db gs

def runOps (db : DB) (ops : List CreditOp) : DB :=
  ops.foldl runOp db

def opGroups (db : DB) (op : CreditOp) : List (List DBWrite) :=
  match compileOp db op with
  | .error _ => []
  | .ok gs => gs

def usersNonneg (db : DB) : Bool :=
  db.users.all (fun u => decide (0 ≤ u.2))

def reqsNonneg (db : DB) : Bool :=
  db.reqs.all (fun r => decide (0 ≤ r.creditsRequested))

def writeIsBal : DBWrite → Bool
  | .setCredits _ _ => true
  | .incCredits _ _ => true
  | _ => false

def writeIsTxn : DBWrite → Bool
  | .insertTxn _ => true
  | _ => false

def groupsBalWrites (gs : List (List DBWrite)) : Nat :=
  (gs.flatten.filter writeIsBal).length

def groupsTxnInserts (gs : List (List DBWrite)) : Nat :=
  (gs.flatten.filter writeIsTxn).length

def jsStartsWith (s pre : String) : Bool :=
  pre.data.isPrefixOf s.data

structure FileInfo where
  name : String
  mimeType : String
  size : Nat
  apiOutcome : Bool
deriving DecidableEq, Repr

structure ProcessResult where
  success : Bool
  filename : String
  source : String
  errorMsg : Option String
  index : Nat
deriving DecidableEq, Repr

inductive Ev where
  | creditCheck (idx : Nat) (balance : Int)
  | apiCall (idx : Nat)
  | deductCall (idx : Nat) (amount : Int)
deriving DecidableEq, Repr

def countSucc (rs : List ProcessResult) : Nat :=
  (rs.filter (fun r => r.success)).length

def deductedTotal (trace : List Ev) : Int :=
  (trace.filterMap (fun e =>
    match e with
    | .deductCall _ a => some a
    | _ => none)).sum

def deductEvents (trace : List Ev) : List Ev :=
  trace.filter (fun e =>
    match e with
    | .deductCall _ _ => true
    | _ => false)

def processImageDescribe (apiKey : Bool) (idx : Nat) (f : FileInfo) :
    ProcessResult × List Ev :=
  if ¬ jsStartsWith f.mimeType "image/" then
    (⟨false, f.name, "", some "File must be an image", idx⟩, [])
  else if f.size > 10 * 1024 * 1024 then
    (⟨false, f.name, "", some "File size must be less than 10MB", idx⟩, [])
  else if apiKey then
    if f.apiOutcome then
      (⟨true, f.name, "ideogram", none, idx⟩, [.apiCall idx])
    else
      (⟨true, f.name, "fallback", none, idx⟩, [.apiCall idx])
  else
    (⟨true, f.name, "fallback", none, idx⟩, [])

structure EndpointOut where
  status : Nat
  errorMsg : Option String
  results : List ProcessResult
  trace : List Ev
  creditsAfter : Int
deriving DecidableEq, Repr

def describeOuts (apiKey : Bool) (files : List FileInfo) :
    List (ProcessResult × List Ev) :=
  files.enum.map (fun p => processImageDescribe apiKey p.1 p.2)

def describePOST (apiKey : Bool) (credits : Int) (files : List FileInfo) :
    EndpointOut :=
  if files.isEmpty then
    ⟨400, some "No image file(s) provided", [], [], credits⟩
  else if credits < (files.length : Int) then
    ⟨402, some "Insufficient credits", [], [], credits⟩
  else
    let outs := describeOuts apiKey files
    let results := outs.map (fun o => o.1)
    let trace := (outs.map (fun o => o.2)).flatten
    let succ := countSucc results
    if 0 < succ then
      ⟨200, none, results, trace ++ [.deductCall 0 (succ : Int)],
       credits - (succ : Int)⟩
    else
      ⟨200, none, results, trace, credits⟩

def processImageStream (apiKey : Bool) (idx : Nat) (f : FileInfo) :
    ProcessResult × List Ev :=
  if ¬ jsStartsWith f.mimeType "image/" then
    (⟨false, f.name, "", some "File must be an image", idx⟩, [])
  else if f.size > 10 * 1024 * 1024 then
    (⟨false, f.name, "", some "File size must be less than 10MB", idx⟩, [])
  else if ¬ apiKey then
    (⟨false, f.name, "",
      some "Image description service is not available - API key not configured",
      idx⟩, [])
  else if ¬ f.apiOutcome then
    (⟨false, f.name, "", some "Failed to describe image", idx⟩, [.apiCall idx])
  else
    (⟨true, f.name, "ideogram", none, idx⟩, [.apiCall idx])

structure LoopOut where
  results : List ProcessResult
  creditsAfter : Int
  trace : List Ev
deriving DecidableEq, Repr

def bulkLoop (apiKey : Bool) (credits : Int) (i : Nat) :
    List FileInfo → LoopOut
  | [] => ⟨[], credits, []⟩
  | f :: rest =>
    if credits < 1 then
      ⟨[⟨false, f.name, "", some "Insufficient credits to process this image", i⟩],
       credits, [.creditCheck i credits]⟩
    else
      let pe := processImageStream apiKey i f
      if pe.1.success then
        let out := bulkLoop apiKey (credits - 1) (i + 1) rest
        ⟨pe.1 :: out.results, out.creditsAfter,
         .creditCheck i credits :: (pe.2 ++ [.deductCall i 1] ++ out.trace)⟩
      else
        let out := bulkLoop apiKey credits (i + 1) rest
        ⟨pe.1 :: out.results, out.creditsAfter,
         .creditCheck i credits :: (pe.2 ++ out.trace)⟩

def bulkPOST (apiKey : Bool) (credits : Int) (files : List FileInfo) :
    EndpointOut :=
  if files.isEmpty then
    ⟨400, some "No image files provided", [], [], credits⟩
  else if credits < (files.length : Int) then
    ⟨402, some "Insufficient credits", [], [], credits⟩
  else
    let out := bulkLoop apiKey credits 0 files
    ⟨200, none, out.results, out.trace, out.creditsAfter⟩

def serviceProcessImage (apiKey : Bool) (idx : Nat) (f : FileInfo) :
    ProcessResult × List Ev :=
  if ¬ jsStartsWith f.mimeType "image/" then
    (⟨false, f.name, "", some "File must be an image", idx⟩, [])
  else if f.size > 10 * 1024 * 1024 then
    (⟨false, f.name, "", some "File size must be less than 10MB", idx⟩, [])
  else if ¬ apiKey then
    (⟨false, f.name, "",
      some "Image description service is not available - API key not configured",
      idx⟩, [])
  else if ¬ f.apiOutcome then
    (⟨false, f.name, "", some "Failed to describe image", idx⟩, [.apiCall idx])
  else
    (⟨true, f.name, "ideogram", none, idx⟩, [.apiCall idx])

def chunks (n : Nat) : List α → List (List α)
  | [] => []
  | x :: xs => (x :: xs.take (n - 1)) :: chunks n (xs.drop (n - 1))
termination_by l => l.length
decreasing_by
  simp only [List.length_drop, List.length_cons]
  omega

def processFilesConcurrently (apiKey : Bool) (files : List (Nat × FileInfo)) :
    List (ProcessResult × List Ev) :=
  ((chunks 10 files).map (fun batch =>
    ((chunks 5 batch).map (fun window =>
      window.map (fun p => serviceProcessImage apiKey p.1 p.2))).flatten)).flatten

def bwcOuts (apiKey : Bool) (files : List FileInfo) :
    List (ProcessResult × List Ev) :=
  processFilesConcurrently apiKey files.enum

def bulkWithCreditsPOST (apiKey : Bool) (credits : Int) (files : List FileInfo) :
    EndpointOut :=
  if files.isEmpty then
    ⟨400, some "No image files provided", [], [], credits⟩
  else if credits < (files.length : Int) then
    ⟨402, some "Insufficient credits", [], [], credits⟩
  else
    let outs := bwcOuts apiKey files
    let results := outs.map (fun o => o.1)
    let trace := (outs.map (fun o => o.2)).flatten
    let succ := countSucc results
    if 0 < succ then
      ⟨200, none, results, trace ++ [.deductCall 0 (succ : Int)],
       credits - (succ : Int)⟩
    else
      ⟨200, none, results, trace, credits⟩

def bulkWithCreditsV1POST
    (proc : List FileInfo → List ProcessResult × List Ev × Int)
    (credits : Int) (images : List FileInfo) : EndpointOut :=
  if images.isEmpty then
    ⟨400, some "No images provided", [], [], credits⟩
  else if images.length > 100 then
    ⟨400, some "Too many files. Maximum 100 files allowed per batch.", [], [],
     credits⟩
  else
    let out := proc images
    ⟨200, none, out.1, out.2.1, out.2.2⟩

def evIdx : Ev → Nat
  | .creditCheck i _ => i
  | .apiCall i => i
  | .deductCall i _ => i

def validFile (f : FileInfo) : Bool :=
  jsStartsWith f.mimeType "image/" && !(decide (f.size > 10 * 1024 * 1024))

def dbW : DB :=
  ⟨[("u1", 3)], [⟨"u1", 3, .BONUS⟩], [⟨"r1", "u1", 10, .PENDING⟩]⟩

def fileOk : FileInfo := ⟨"ok.png", "image/png", 2048, true⟩

def fileApiFail : FileInfo := ⟨"photo.png", "image/png", 2048, false⟩

def statusOf : PaymentAction → PaymentStatus
  | .APPROVED => .APPROVED
  | .REJECTED => .REJECTED

/-! ## Theorems -/

theorem findU_setU_self (l : List (String × Int)) (uid : String) (v : Int) :
    findU (setU l uid v) uid = if (findU l uid).isSome then some v else none := by
  induction l with
  | nil => simp [findU, setU]
  | cons u rest ih =>
    by_cases h : u.1 = uid
    · simp [findU, setU, h]
    · simp [findU, setU, h, ih]

theorem findU_setU_ne (l : List (String × Int)) (uid : String) (v : Int)
    (uid' : String) (h : uid' ≠ uid) :
    findU (setU l uid v) uid' = findU l uid' := by
  induction l with
  | nil => simp [findU, setU]
  | cons u rest ih =>
    simp only [setU]
    by_cases hu : u.1 = uid
    · rw [if_pos hu]
      simp only [findU]
      rw [if_neg (fun he => h he.symm), if_neg (fun he => h (he.symm.trans hu))]
    · rw [if_neg hu]
      simp only [findU, ih]

theorem isSome_findU_setU (l : List (String × Int)) (uid : String) (v : Int)
    (k : String) : (findU (setU l uid v) k).isSome = (findU l k).isSome := by
  by_cases h : k = uid
  · subst h
    rw [findU_setU_self]
    cases hfind : findU l k <;> simp
  · rw [findU_setU_ne l uid v k h]

theorem findU_mem (l : List (String × Int)) (uid : String) (c : Int)
    (h : findU l uid = some c) : (uid, c) ∈ l := by
  induction l with
  | nil => simp [findU] at h
  | cons u rest ih =>
    simp only [findU] at h
    by_cases hu : u.1 = uid
    · rw [if_pos hu] at h
      cases u with
      | mk a b =>
        simp only at hu
        simp only [Option.some_inj] at h
        subst hu
        subst h
        exact List.mem_cons_self _ _
    · rw [if_neg hu] at h
      exact List.mem_cons_of_mem _ (ih h)

theorem mem_setU (l : List (String × Int)) (uid : String) (v : Int)
    (p : String × Int) (h : p ∈ setU l uid v) : p = (uid, v) ∨ p ∈ l := by
  induction l with
  | nil => simp [setU] at h
  | cons u rest ih =>
    by_cases hu : u.1 = uid
    · simp [setU, hu] at h
      rcases h with h | h
      · exact Or.inl h
      · exact Or.inr (List.mem_cons_of_mem _ h)
    · simp [setU, hu] at h
      rcases h with h | h
      · exact Or.inr (by simp [h])
      · rcases ih h with h' | h'
        · exact Or.inl h'
        · exact Or.inr (List.mem_cons_of_mem _ h')

theorem txnSum_append (txns ts : List CreditTransaction) (uid : String) :
    txnSum (txns ++ ts) uid = txnSum txns uid + txnSum ts uid := by
  simp [txnSum, List.filter_append]

theorem txnSum_single (uid uid' : String) (d : Int) (ty : CreditTransactionType) :
    txnSum [⟨uid, d, ty⟩] uid' = if uid = uid' then d else 0 := by
  by_cases h : uid = uid' <;> simp [txnSum, List.filter, h]

theorem map_userId_setReqStatus (reqs : List PaymentRequestRow) (rid : String)
    (s : PaymentStatus) :
    (setReqStatus reqs rid s).map (fun r => r.userId)
      = reqs.map (fun r => r.userId) := by
  induction reqs with
  | nil => simp [setReqStatus]
  | cons r rest ih =>
    by_cases h : r.id = rid
    · simp [setReqStatus, h]
    · simp [setReqStatus, h, ih]

theorem findReq_mem (reqs : List PaymentRequestRow) (rid : String)
    (pr : PaymentRequestRow) (h : findReq reqs rid = some pr) : pr ∈ reqs := by
  induction reqs with
  | nil => simp [findReq] at h
  | cons r rest ih =>
    by_cases hr : r.id = rid
    · simp [findReq, hr] at h
      simp [h]
    · simp [findReq, hr] at h
      exact List.mem_cons_of_mem _ (ih h)

theorem findReq_setReqStatus_self (reqs : List PaymentRequestRow) (rid : String)
    (s : PaymentStatus) :
    findReq (setReqStatus reqs rid s) rid
      = (findReq reqs rid).map (fun r => { r with status := s }) := by
  induction reqs with
  | nil => simp [findReq, setReqStatus]
  | cons r rest ih =>
    by_cases h : r.id = rid
    · simp [findReq, setReqStatus, h]
    · simp [findReq, setReqStatus, h, ih]

theorem ledgerBalanced_update (users : List (String × Int))
    (txns : List CreditTransaction) (reqs reqs' : List PaymentRequestRow)
    (uid : String) (c d : Int) (ty : CreditTransactionType)
    (hfind : findU users uid = some c)
    (hreq : reqs'.map (fun r => r.userId) = reqs.map (fun r => r.userId))
    (hbal : ledgerBalanced ⟨users, txns, reqs⟩ = true) :
    ledgerBalanced ⟨setU users uid (c + d), txns ++ [⟨uid, d, ty⟩], reqs'⟩ = true := by
  simp only [ledgerBalanced, Bool.and_eq_true, List.all_eq_true] at hbal ⊢
  obtain ⟨⟨h1, h2⟩, h3⟩ := hbal
  have hcsum : c = txnSum txns uid := by
    have := h1 (uid, c) (findU_mem users uid c hfind)
    simp only [beq_iff_eq, hfind] at this
    exact Option.some_injective _ this
  refine ⟨⟨?_, ?_⟩, ?_⟩
  · intro u hu
    by_cases hk : u.1 = uid
    · rw [beq_iff_eq, hk, findU_setU_self, hfind]
      simp only [Option.isSome_some, if_true]
      rw [txnSum_append, txnSum_single]
      simp [hcsum]
    · rw [beq_iff_eq, findU_setU_ne users uid (c + d) u.1 hk]
      rw [txnSum_append, txnSum_single]
      rw [if_neg (fun he => hk he.symm)]
      rcases mem_setU users uid (c + d) u hu with h | h
      · exact absurd (by rw [h]) hk
      · have := h1 u h
        simp only [beq_iff_eq] at this
        simp [this]
  · intro t ht
    rcases List.mem_append.mp ht with h | h
    · rw [isSome_findU_setU]
      exact h2 t h
    · simp only [List.mem_singleton] at h
      subst h
      rw [isSome_findU_setU]
      simp [hfind]
  · intro r hr
    have : r.userId ∈ reqs'.map (fun r => r.userId) := List.mem_map_of_mem _ hr
    rw [hreq] at this
    obtain ⟨r0, hr0, he⟩ := List.mem_map.mp this
    rw [isSome_findU_setU, ← he]
    exact h3 r0 hr0

theorem runOp_deduct (db : DB) (uid : String) (a c : Int)
    (hfind : findU db.users uid = some c) (hge : ¬ c < a) :
    runOp db (.deduct uid a)
      = ⟨setU db.users uid (c - a),
         db.txns ++ [⟨uid, -a, .IMAGE_DESCRIPTION⟩], db.reqs⟩ := by
  simp [runOp, compileOp, deductCredits, hfind, hge, applyGroups, applyGroup,
    applyWrite]

theorem runOp_deduct_insufficient (db : DB) (uid : String) (a : Int)
    (h : findU db.users uid = none ∨ ∃ c, findU db.users uid = some c ∧ c < a) :
    deductCredits db uid a = .error "Insufficient credits"
      ∧ runOp db (.deduct uid a) = db := by
  rcases h with h | ⟨c, hc, hlt⟩
  · constructor <;> simp [runOp, compileOp, deductCredits, h]
  · constructor <;> simp [runOp, compileOp, deductCredits, hc, hlt]

theorem runOp_add (db : DB) (uid : String) (a c : Int)
    (ty : CreditTransactionType) (hfind : findU db.users uid = some c) :
    runOp db (.add uid a ty)
      = ⟨setU db.users uid (c + a), db.txns ++ [⟨uid, a, ty⟩], db.reqs⟩ := by
  simp [runOp, compileOp, addCredits, hfind, applyGroups, applyGroup, applyWrite]

theorem runOp_payment_approved (db : DB) (rid : String) (pr : PaymentRequestRow)
    (c : Int) (hfind : findReq db.reqs rid = some pr)
    (hst : pr.status = PaymentStatus.PENDING)
    (hu : findU db.users pr.userId = some c) :
    runOp db (.payment rid .APPROVED)
      = ⟨setU db.users pr.userId (c + pr.creditsRequested),
         db.txns ++ [⟨pr.userId, pr.creditsRequested, .PURCHASE⟩],
         setReqStatus db.reqs rid .APPROVED⟩ := by
  simp [runOp, compileOp, processPayment, hfind, hst, hu, applyGroups,
    applyGroup, applyWrite]

theorem runOp_payment_rejected (db : DB) (rid : String) (pr : PaymentRequestRow)
    (hfind : findReq db.reqs rid = some pr)
    (hst : pr.status = PaymentStatus.PENDING) :
    runOp db (.payment rid .REJECTED)
      = { db with reqs := setReqStatus db.reqs rid .REJECTED } := by
  simp [runOp, compileOp, processPayment, hfind, hst, applyGroups, applyGroup,
    applyWrite]

theorem runOp_payment_processed (db : DB) (rid : String)
    (pr : PaymentRequestRow) (act : PaymentAction)
    (hfind : findReq db.reqs rid = some pr)
    (hst : pr.status ≠ PaymentStatus.PENDING) :
    processPayment db rid act = .error "Payment request has already been processed"
      ∧ runOp db (.payment rid act) = db := by
  constructor <;> simp [runOp, compileOp, processPayment, hfind, hst]

theorem runOp_adminAdjust (db : DB) (uid : String) (c cur : Int)
    (hfind : findU db.users uid = some cur) (hne : c ≠ cur) :
    runOp db (.adminAdjust uid (some c))
      = ⟨setU db.users uid c,
         db.txns ++ [⟨uid, c - cur, .ADMIN_ADJUSTMENT⟩], db.reqs⟩ := by
  simp [runOp, compileOp, adminUpdateUserCredits, hfind, hne, applyGroups,
    applyGroup, applyWrite]

theorem ledgerBalanced_setReqs (users : List (String × Int))
    (txns : List CreditTransaction) (reqs reqs' : List PaymentRequestRow)
    (hreq : reqs'.map (fun r => r.userId) = reqs.map (fun r => r.userId))
    (hbal : ledgerBalanced ⟨users, txns, reqs⟩ = true) :
    ledgerBalanced ⟨users, txns, reqs'⟩ = true := by
  simp only [ledgerBalanced, Bool.and_eq_true, List.all_eq_true] at hbal ⊢
  obtain ⟨⟨h1, h2⟩, h3⟩ := hbal
  refine ⟨⟨h1, h2⟩, ?_⟩
  intro r hr
  have : r.userId ∈ reqs'.map (fun r => r.userId) := List.mem_map_of_mem _ hr
  rw [hreq] at this
  obtain ⟨r0, hr0, he⟩ := List.mem_map.mp this
  rw [← he]
  exact h3 r0 hr0

theorem ledgerBalanced_reqUser (db : DB) (pr : PaymentRequestRow)
    (hpr : pr ∈ db.reqs) (hbal : ledgerBalanced db = true) :
    ∃ c, findU db.users pr.userId = some c := by
  simp only [ledgerBalanced, Bool.and_eq_true, List.all_eq_true] at hbal
  have := hbal.2 pr hpr
  cases hfind : findU db.users pr.userId with
  | none => rw [hfind] at this; simp at this
  | some c => exact ⟨c, rfl⟩

theorem ledgerBalanced_runOp (db : DB) (op : CreditOp)
    (h : ledgerBalanced db = true) : ledgerBalanced (runOp db op) = true := by
  obtain ⟨users, txns, reqs⟩ := db
  cases op with
  | deduct uid a =>
    cases hf : findU users uid with
    | none => simpa [runOp, compileOp, deductCredits, hf] using h
    | some c =>
      by_cases hlt : c < a
      · simpa [runOp, compileOp, deductCredits, hf, hlt] using h
      · rw [runOp_deduct ⟨users, txns, reqs⟩ uid a c hf hlt]
        rw [sub_eq_add_neg]
        exact ledgerBalanced_update users txns reqs reqs uid c (-a) _ hf rfl h
  | add uid a ty =>
    cases hf : findU users uid with
    | none => simpa [runOp, compileOp, addCredits, hf] using h
    | some c =>
      rw [runOp_add ⟨users, txns, reqs⟩ uid a c ty hf]
      exact ledgerBalanced_update users txns reqs reqs uid c a ty hf rfl h
  | payment rid act =>
    cases hf : findReq reqs rid with
    | none => simpa [runOp, compileOp, processPayment, hf] using h
    | some pr =>
      by_cases hst : pr.status = PaymentStatus.PENDING
      · obtain ⟨c, hc⟩ :=
          ledgerBalanced_reqUser ⟨users, txns, reqs⟩ pr (findReq_mem reqs rid pr hf) h
        cases act with
        | APPROVED =>
          rw [runOp_payment_approved ⟨users, txns, reqs⟩ rid pr c hf hst hc]
          exact ledgerBalanced_update users txns reqs
            (setReqStatus reqs rid .APPROVED) pr.userId c pr.creditsRequested _
            hc (map_userId_setReqStatus reqs rid _) h
        | REJECTED =>
          rw [runOp_payment_rejected ⟨users, txns, reqs⟩ rid pr hf hst]
          exact ledgerBalanced_setReqs users txns reqs
            (setReqStatus reqs rid .REJECTED) (map_userId_setReqStatus reqs rid _) h
      · rw [(runOp_payment_processed ⟨users, txns, reqs⟩ rid pr act hf hst).2]
        exact h
  | adminAdjust uid c? =>
    cases hf : findU users uid with
    | none => simpa [runOp, compileOp, adminUpdateUserCredits, hf] using h
    | some cur =>
      cases c? with
      | none =>
        simpa [runOp, compileOp, adminUpdateUserCredits, hf, applyGroups] using h
      | some c =>
        by_cases hne : c = cur
        · simpa [runOp, compileOp, adminUpdateUserCredits, hf, hne,
            applyGroups] using h
        · rw [runOp_adminAdjust ⟨users, txns, reqs⟩ uid c cur hf hne]
          have := ledgerBalanced_update users txns reqs reqs uid cur (c - cur)
            CreditTransactionType.ADMIN_ADJUSTMENT hf rfl h
          rwa [show cur + (c - cur) = c by ring] at this

theorem ledgerBalanced_runOps (db : DB) (ops : List CreditOp)
    (h : ledgerBalanced db = true) : ledgerBalanced (runOps db ops) = true := by
  induction ops generalizing db with
  | nil => simpa [runOps] using h
  | cons op rest ih =>
    have : runOps db (op :: rest) = runOps (runOp db op) rest := by
      simp [runOps]
    rw [this]
    exact ih (runOp db op) (ledgerBalanced_runOp db op h)

theorem all_nonneg_setU (l : List (String × Int)) (uid : String) (v : Int)
    (hv : 0 ≤ v) (h : l.all (fun u => decide (0 ≤ u.2)) = true) :
    (setU l uid v).all (fun u => decide (0 ≤ u.2)) = true := by
  simp only [List.all_eq_true] at h ⊢
  intro p hp
  rcases mem_setU l uid v p hp with h' | h'
  · subst h'
    simpa using hv
  · exact h p h'

theorem findU_nonneg (l : List (String × Int)) (uid : String) (c : Int)
    (hfind : findU l uid = some c)
    (h : l.all (fun u => decide (0 ≤ u.2)) = true) : 0 ≤ c := by
  simp only [List.all_eq_true] at h
  simpa using h (uid, c) (findU_mem l uid c hfind)

theorem usersNonneg_deduct (db : DB) (uid : String) (a : Int)
    (h : usersNonneg db = true) :
    usersNonneg (runOp db (.deduct uid a)) = true := by
  cases hf : findU db.users uid with
  | none => simpa [runOp, compileOp, deductCredits, hf] using h
  | some c =>
    by_cases hlt : c < a
    · simpa [runOp, compileOp, deductCredits, hf, hlt] using h
    · rw [runOp_deduct db uid a c hf hlt]
      exact all_nonneg_setU db.users uid (c - a) (by omega) h

theorem usersNonneg_add (db : DB) (uid : String) (a : Int)
    (ty : CreditTransactionType) (ha : 0 ≤ a) (h : usersNonneg db = true) :
    usersNonneg (runOp db (.add uid a ty)) = true := by
  cases hf : findU db.users uid with
  | none => simpa [runOp, compileOp, addCredits, hf] using h
  | some c =>
    rw [runOp_add db uid a c ty hf]
    have hc := findU_nonneg db.users uid c hf h
    exact all_nonneg_setU db.users uid (c + a) (by omega) h

theorem usersNonneg_payment (db : DB) (rid : String) (act : PaymentAction)
    (hreqs : reqsNonneg db = true) (h : usersNonneg db = true) :
    usersNonneg (runOp db (.payment rid act)) = true := by
  cases hf : findReq db.reqs rid with
  | none => simpa [runOp, compileOp, processPayment, hf] using h
  | some pr =>
    by_cases hst : pr.status = PaymentStatus.PENDING
    · have hcr : 0 ≤ pr.creditsRequested := by
        simp only [reqsNonneg, List.all_eq_true] at hreqs
        simpa using hreqs pr (findReq_mem db.reqs rid pr hf)
      cases act with
      | APPROVED =>
        cases hu : findU db.users pr.userId with
        | none =>
          simpa [runOp, compileOp, processPayment, hf, hst, hu, applyGroups,
            applyGroup, applyWrite] using h
        | some c =>
          rw [runOp_payment_approved db rid pr c hf hst hu]
          have hc := findU_nonneg db.users pr.userId c hu h
          exact all_nonneg_setU db.users pr.userId (c + pr.creditsRequested)
            (by omega) h
      | REJECTED =>
        rw [runOp_payment_rejected db rid pr hf hst]
        simpa [usersNonneg] using h
    · rw [(runOp_payment_processed db rid pr act hf hst).2]
      exact h

theorem opPairsLedger (db : DB) (op : CreditOp) (gs : List (List DBWrite))
    (h : compileOp db op = .ok gs) :
    groupsBalWrites gs = groupsTxnInserts gs := by
  cases op with
  | deduct uid a =>
    cases hf : findU db.users uid with
    | none => simp [compileOp, deductCredits, hf] at h
    | some c =>
      by_cases hlt : c < a
      · simp [compileOp, deductCredits, hf, hlt] at h
      · simp [compileOp, deductCredits, hf, hlt] at h
        subst h
        rfl
  | add uid a ty =>
    cases hf : findU db.users uid with
    | none => simp [compileOp, addCredits, hf] at h
    | some c =>
      simp [compileOp, addCredits, hf] at h
      subst h
      rfl
  | payment rid act =>
    cases hf : findReq db.reqs rid with
    | none => simp [compileOp, processPayment, hf] at h
    | some pr =>
      by_cases hst : pr.status = PaymentStatus.PENDING
      · cases act with
        | APPROVED =>
          simp [compileOp, processPayment, hf, hst] at h
          subst h
          rfl
        | REJECTED =>
          simp [compileOp, processPayment, hf, hst] at h
          subst h
          rfl
      · simp [compileOp, processPayment, hf, hst] at h
  | adminAdjust uid c? =>
    cases hf : findU db.users uid with
    | none => simp [compileOp, adminUpdateUserCredits, hf] at h
    | some cur =>
      cases c? with
      | none =>
        simp [compileOp, adminUpdateUserCredits, hf] at h
        subst h
        rfl
      | some c =>
        by_cases hne : c = cur
        · simp [compileOp, adminUpdateUserCredits, hf, hne] at h
          subst h
          rfl
        · simp [compileOp, adminUpdateUserCredits, hf, hne] at h
          subst h
          rfl

theorem chunks_flatten (n : Nat) (l : List α) : (chunks n l).flatten = l := by
  induction l using chunks.induct n with
  | case1 => simp [chunks]
  | case2 x xs ih =>
    rw [chunks]
    simp only [List.flatten_cons, ih]
    simp

theorem chunks_length_le (n : Nat) (l : List α) (c : List α)
    (hc : c ∈ chunks n l) : c.length ≤ max 1 n := by
  induction l using chunks.induct n with
  | case1 => simp [chunks] at hc
  | case2 x xs ih =>
    rw [chunks] at hc
    rcases List.mem_cons.mp hc with h | h
    · subst h
      simp only [List.length_cons, List.length_take]
      omega
    · exact ih h

theorem chunks_map_flatten (n : Nat) (g : α → β) (l : List α) :
    ((chunks n l).map (fun c => c.map g)).flatten = l.map g := by
  have := List.map_flatten g (chunks n l)
  rw [chunks_flatten] at this
  simpa using this.symm

theorem processFilesConcurrently_eq (apiKey : Bool)
    (files : List (Nat × FileInfo)) :
    processFilesConcurrently apiKey files
      = files.map (fun p => serviceProcessImage apiKey p.1 p.2) := by
  unfold processFilesConcurrently
  have hinner : ∀ batch : List (Nat × FileInfo),
      ((chunks 5 batch).map (fun window =>
        window.map (fun p => serviceProcessImage apiKey p.1 p.2))).flatten
        = batch.map (fun p => serviceProcessImage apiKey p.1 p.2) :=
    fun batch => chunks_map_flatten 5 _ batch
  rw [List.map_congr_left (fun batch _ => hinner batch)]
  exact chunks_map_flatten 10 _ files

theorem processImageStream_index (k : Bool) (i : Nat) (f : FileInfo) :
    (processImageStream k i f).1.index = i := by
  unfold processImageStream
  repeat' split
  all_goals rfl

theorem processImageStream_trace (k : Bool) (i : Nat) (f : FileInfo) :
    (processImageStream k i f).2 = [] ∨ (processImageStream k i f).2 = [Ev.apiCall i] := by
  unfold processImageStream
  repeat' split
  all_goals simp

theorem mem_processImageStream_trace (k : Bool) (i : Nat) (f : FileInfo)
    (e : Ev) (he : e ∈ (processImageStream k i f).2) : e = Ev.apiCall i := by
  rcases processImageStream_trace k i f with ht | ht
  · rw [ht] at he
    exact absurd he (List.not_mem_nil e)
  · rw [ht] at he
    simpa using he

theorem bulkLoop_nil (k : Bool) (c : Int) (i : Nat) :
    bulkLoop k c i [] = ⟨[], c, []⟩ := rfl

theorem bulkLoop_cons_break (k : Bool) (c : Int) (i : Nat) (f : FileInfo)
    (rest : List FileInfo) (hc : c < 1) :
    bulkLoop k c i (f :: rest)
      = ⟨[⟨false, f.name, "", some "Insufficient credits to process this image", i⟩],
         c, [.creditCheck i c]⟩ := by
  rw [bulkLoop]
  simp [hc]

theorem bulkLoop_cons_succ (k : Bool) (c : Int) (i : Nat) (f : FileInfo)
    (rest : List FileInfo) (hc : ¬ c < 1)
    (hs : (processImageStream k i f).1.success = true) :
    bulkLoop k c i (f :: rest)
      = ⟨(processImageStream k i f).1 :: (bulkLoop k (c - 1) (i + 1) rest).results,
         (bulkLoop k (c - 1) (i + 1) rest).creditsAfter,
         .creditCheck i c :: ((processImageStream k i f).2 ++ [.deductCall i 1]
           ++ (bulkLoop k (c - 1) (i + 1) rest).trace)⟩ := by
  rw [bulkLoop]
  simp [hc, hs]

theorem bulkLoop_cons_fail (k : Bool) (c : Int) (i : Nat) (f : FileInfo)
    (rest : List FileInfo) (hc : ¬ c < 1)
    (hs : (processImageStream k i f).1.success = false) :
    bulkLoop k c i (f :: rest)
      = ⟨(processImageStream k i f).1 :: (bulkLoop k c (i + 1) rest).results,
         (bulkLoop k c (i + 1) rest).creditsAfter,
         .creditCheck i c :: ((processImageStream k i f).2
           ++ (bulkLoop k c (i + 1) rest).trace)⟩ := by
  rw [bulkLoop]
  simp [hc, hs]

theorem bulkLoop_length_le (k : Bool) (c : Int) (i : Nat) (fs : List FileInfo) :
    (bulkLoop k c i fs).results.length ≤ fs.length := by
  induction fs generalizing c i with
  | nil => simp [bulkLoop_nil]
  | cons f rest ih =>
    by_cases hc : c < 1
    · rw [bulkLoop_cons_break k c i f rest hc]
      simp
    · by_cases hs : (processImageStream k i f).1.success = true
      · rw [bulkLoop_cons_succ k c i f rest hc hs]
        simpa using ih (c - 1) (i + 1)
      · rw [bulkLoop_cons_fail k c i f rest hc (by simpa using hs)]
        simpa using ih c (i + 1)

theorem bulkLoop_indices (k : Bool) (c : Int) (i : Nat) (fs : List FileInfo) :
    (bulkLoop k c i fs).results.map (fun r => r.index)
      = List.range' i (bulkLoop k c i fs).results.length := by
  induction fs generalizing c i with
  | nil => simp [bulkLoop_nil]
  | cons f rest ih =>
    by_cases hc : c < 1
    · rw [bulkLoop_cons_break k c i f rest hc]
      simp [List.range'_succ]
    · by_cases hs : (processImageStream k i f).1.success = true
      · rw [bulkLoop_cons_succ k c i f rest hc hs]
        simp only [List.map_cons, List.length_cons, List.range'_succ,
          processImageStream_index]
        rw [ih (c - 1) (i + 1)]
      · rw [bulkLoop_cons_fail k c i f rest hc (by simpa using hs)]
        simp only [List.map_cons, List.length_cons, List.range'_succ,
          processImageStream_index]
        rw [ih c (i + 1)]

theorem bulkLoop_credits (k : Bool) (c : Int) (i : Nat) (fs : List FileInfo) :
    (bulkLoop k c i fs).creditsAfter
      = c - (countSucc (bulkLoop k c i fs).results : Int) := by
  induction fs generalizing c i with
  | nil => simp [bulkLoop_nil, countSucc]
  | cons f rest ih =>
    by_cases hc : c < 1
    · rw [bulkLoop_cons_break k c i f rest hc]
      simp [countSucc]
    · by_cases hs : (processImageStream k i f).1.success = true
      · rw [bulkLoop_cons_succ k c i f rest hc hs]
        simp only [countSucc, List.filter_cons, hs, if_true, List.length_cons]
        have := ih (c - 1) (i + 1)
        simp only [countSucc] at this
        rw [this]
        push_cast
        ring
      · rw [bulkLoop_cons_fail k c i f rest hc (by simpa using hs)]
        simp only [countSucc, List.filter_cons, hs, Bool.false_eq_true, if_false]
        exact ih c (i + 1)

theorem deductEvents_processImageStream (k : Bool) (i : Nat) (f : FileInfo) :
    deductEvents (processImageStream k i f).2 = [] := by
  rcases processImageStream_trace k i f with ht | ht <;>
    simp [deductEvents, ht]

theorem bulkLoop_deductEvents (k : Bool) (c : Int) (i : Nat) (fs : List FileInfo) :
    deductEvents (bulkLoop k c i fs).trace
      = (bulkLoop k c i fs).results.filterMap
          (fun r => if r.success then some (Ev.deductCall r.index 1) else none) := by
  induction fs generalizing c i with
  | nil => simp [bulkLoop_nil, deductEvents]
  | cons f rest ih =>
    by_cases hc : c < 1
    · rw [bulkLoop_cons_break k c i f rest hc]
      simp [deductEvents]
    · by_cases hs : (processImageStream k i f).1.success = true
      · rw [bulkLoop_cons_succ k c i f rest hc hs]
        have hpe := deductEvents_processImageStream k i f
        simp only [deductEvents, List.filter_cons, List.filter_append] at hpe ih ⊢
        simp only [hpe, List.nil_append]
        simp only [List.filterMap_cons, hs, if_true, processImageStream_index]
        rw [ih (c - 1) (i + 1)]
        rfl
      · have hs' : (processImageStream k i f).1.success = false := by simpa using hs
        rw [bulkLoop_cons_fail k c i f rest hc hs']
        have hpe := deductEvents_processImageStream k i f
        simp only [deductEvents, List.filter_cons, List.filter_append] at hpe ih ⊢
        simp only [hpe, List.nil_append]
        simp only [List.filterMap_cons, hs', Bool.false_eq_true, if_false]
        exact ih c (i + 1)

theorem bulkLoop_trace_lb (k : Bool) (c : Int) (i : Nat) (fs : List FileInfo)
    (e : Ev) (he : e ∈ (bulkLoop k c i fs).trace) : i ≤ evIdx e := by
  induction fs generalizing c i with
  | nil =>
    rw [bulkLoop_nil] at he
    exact absurd he (List.not_mem_nil e)
  | cons f rest ih =>
    by_cases hc : c < 1
    · rw [bulkLoop_cons_break k c i f rest hc] at he
      simp only [List.mem_singleton] at he
      subst he
      exact le_refl i
    · by_cases hs : (processImageStream k i f).1.success = true
      · rw [bulkLoop_cons_succ k c i f rest hc hs] at he
        simp only [List.mem_cons, List.mem_append, List.mem_singleton, List.not_mem_nil, or_false] at he
        rcases he with rfl | ((he | rfl) | he)
        · exact le_refl i
        · rw [mem_processImageStream_trace k i f e he]
          exact le_refl i
        · exact le_refl i
        · exact le_trans (Nat.le_succ i) (ih (c - 1) (i + 1) he)
      · rw [bulkLoop_cons_fail k c i f rest hc (by simpa using hs)] at he
        simp only [List.mem_cons, List.mem_append] at he
        rcases he with rfl | (he | he)
        · exact le_refl i
        · rw [mem_processImageStream_trace k i f e he]
          exact le_refl i
        · exact le_trans (Nat.le_succ i) (ih c (i + 1) he)

theorem bulkLoop_trace_ub (k : Bool) (c : Int) (i : Nat) (fs : List FileInfo)
    (e : Ev) (he : e ∈ (bulkLoop k c i fs).trace) :
    evIdx e < i + (bulkLoop k c i fs).results.length := by
  induction fs generalizing c i with
  | nil =>
    rw [bulkLoop_nil] at he
    exact absurd he (List.not_mem_nil e)
  | cons f rest ih =>
    by_cases hc : c < 1
    · rw [bulkLoop_cons_break k c i f rest hc] at he ⊢
      simp only [List.mem_singleton] at he
      subst he
      simp [evIdx]
    · by_cases hs : (processImageStream k i f).1.success = true
      · rw [bulkLoop_cons_succ k c i f rest hc hs] at he ⊢
        simp only [List.length_cons]
        simp only [List.mem_cons, List.mem_append, List.mem_singleton, List.not_mem_nil, or_false] at he
        rcases he with rfl | ((he | rfl) | he)
        · simp [evIdx]
        · rw [mem_processImageStream_trace k i f e he]
          simp [evIdx]
        · simp [evIdx]
        · have := ih (c - 1) (i + 1) he
          omega
      · rw [bulkLoop_cons_fail k c i f rest hc (by simpa using hs)] at he ⊢
        simp only [List.length_cons]
        simp only [List.mem_cons, List.mem_append] at he
        rcases he with rfl | (he | he)
        · simp [evIdx]
        · rw [mem_processImageStream_trace k i f e he]
          simp [evIdx]
        · have := ih c (i + 1) he
          omega

theorem bulkLoop_apiCall_balance (k : Bool) (c : Int) (i : Nat)
    (fs : List FileInfo) (j : Nat)
    (hj : Ev.apiCall j ∈ (bulkLoop k c i fs).trace) :
    ∃ b, Ev.creditCheck j b ∈ (bulkLoop k c i fs).trace ∧ 1 ≤ b := by
  induction fs generalizing c i with
  | nil =>
    rw [bulkLoop_nil] at hj
    exact absurd hj (List.not_mem_nil _)
  | cons f rest ih =>
    by_cases hc : c < 1
    · rw [bulkLoop_cons_break k c i f rest hc] at hj
      simp at hj
    · by_cases hs : (processImageStream k i f).1.success = true
      · rw [bulkLoop_cons_succ k c i f rest hc hs] at hj ⊢
        simp only [List.mem_cons, List.mem_append, List.mem_singleton, List.not_mem_nil, or_false] at hj
        rcases hj with hj | ((hj | hj) | hj)
        · exact absurd hj (by simp)
        · have := mem_processImageStream_trace k i f _ hj
          simp only [Ev.apiCall.injEq] at this
          subst this
          exact ⟨c, by simp, by omega⟩
        · exact absurd hj (by simp)
        · obtain ⟨b, hb, hble⟩ := ih (c - 1) (i + 1) hj
          exact ⟨b, by simp [hb], hble⟩
      · rw [bulkLoop_cons_fail k c i f rest hc (by simpa using hs)] at hj ⊢
        simp only [List.mem_cons, List.mem_append] at hj
        rcases hj with hj | hj | hj
        · exact absurd hj (by simp)
        · have := mem_processImageStream_trace k i f _ hj
          simp only [Ev.apiCall.injEq] at this
          subst this
          exact ⟨c, by simp, by omega⟩
        · obtain ⟨b, hb, hble⟩ := ih c (i + 1) hj
          exact ⟨b, by simp [hb], hble⟩

theorem bulkLoop_check_unique (k : Bool) (c : Int) (i : Nat)
    (fs : List FileInfo) (j : Nat) (b1 b2 : Int)
    (h1 : Ev.creditCheck j b1 ∈ (bulkLoop k c i fs).trace)
    (h2 : Ev.creditCheck j b2 ∈ (bulkLoop k c i fs).trace) : b1 = b2 := by
  induction fs generalizing c i with
  | nil =>
    rw [bulkLoop_nil] at h1
    exact absurd h1 (List.not_mem_nil _)
  | cons f rest ih =>
    by_cases hc : c < 1
    · rw [bulkLoop_cons_break k c i f rest hc] at h1 h2
      simp at h1 h2
      omega
    · have hstep : ∀ b : Int, Ev.creditCheck j b ∉ (processImageStream k i f).2 := by
        intro b hb
        have := mem_processImageStream_trace k i f _ hb
        simp at this
      have htail : ∀ (c' : Int) (b : Int),
          Ev.creditCheck j b ∈ (bulkLoop k c' (i + 1) rest).trace → j ≠ i := by
        intro c' b hmem hji
        have := bulkLoop_trace_lb k c' (i + 1) rest _ hmem
        simp [evIdx] at this
        omega
      by_cases hs : (processImageStream k i f).1.success = true
      · rw [bulkLoop_cons_succ k c i f rest hc hs] at h1 h2
        simp only [List.mem_cons, List.mem_append, List.mem_singleton, List.not_mem_nil, or_false] at h1 h2
        rcases h1 with h1 | ((h1 | h1) | h1) <;>
          rcases h2 with h2 | ((h2 | h2) | h2)
        · simp at h1 h2; omega
        · exact absurd h2 (hstep b2)
        · simp at h2
        · exfalso; simp at h1; exact htail _ b2 h2 h1.1
        · exact absurd h1 (hstep b1)
        · exact absurd h1 (hstep b1)
        · exact absurd h1 (hstep b1)
        · exact absurd h1 (hstep b1)
        · simp at h1
        · simp at h1
        · simp at h1
        · simp at h1
        · exfalso; simp at h2; exact htail _ b1 h1 h2.1
        · exact absurd h2 (hstep b2)
        · simp at h2
        · exact ih (c - 1) (i + 1) h1 h2
      · rw [bulkLoop_cons_fail k c i f rest hc (by simpa using hs)] at h1 h2
        simp only [List.mem_cons, List.mem_append] at h1 h2
        rcases h1 with h1 | h1 | h1 <;> rcases h2 with h2 | h2 | h2
        · simp at h1 h2; omega
        · exact absurd h2 (hstep b2)
        · exfalso; simp at h1; exact htail _ b2 h2 h1.1
        · exact absurd h1 (hstep b1)
        · exact absurd h1 (hstep b1)
        · exact absurd h1 (hstep b1)
        · exfalso; simp at h2; exact htail _ b1 h1 h2.1
        · exact absurd h2 (hstep b2)
        · exact ih c (i + 1) h1 h2

theorem bulkLoop_stop (k : Bool) (c : Int) (i : Nat) (fs : List FileInfo)
    (j : Nat) (b : Int)
    (hj : Ev.creditCheck j b ∈ (bulkLoop k c i fs).trace) (hb : b < 1) :
    i + (bulkLoop k c i fs).results.length = j + 1 := by
  induction fs generalizing c i with
  | nil =>
    rw [bulkLoop_nil] at hj
    exact absurd hj (List.not_mem_nil _)
  | cons f rest ih =>
    by_cases hc : c < 1
    · rw [bulkLoop_cons_break k c i f rest hc] at hj ⊢
      simp at hj
      simp [hj.1]
    · have hstep : Ev.creditCheck j b ∉ (processImageStream k i f).2 := by
        intro hmem
        have := mem_processImageStream_trace k i f _ hmem
        simp at this
      by_cases hs : (processImageStream k i f).1.success = true
      · rw [bulkLoop_cons_succ k c i f rest hc hs] at hj ⊢
        simp only [List.length_cons]
        simp only [List.mem_cons, List.mem_append, List.mem_singleton, List.not_mem_nil, or_false] at hj
        rcases hj with hj | ((hj | hj) | hj)
        · exfalso
          simp at hj
          omega
        · exact absurd hj hstep
        · simp at hj
        · have := ih (c - 1) (i + 1) hj
          omega
      · rw [bulkLoop_cons_fail k c i f rest hc (by simpa using hs)] at hj ⊢
        simp only [List.length_cons]
        simp only [List.mem_cons, List.mem_append] at hj
        rcases hj with hj | hj | hj
        · exfalso
          simp at hj
          omega
        · exact absurd hj hstep
        · have := ih c (i + 1) hj
          omega

theorem processImageDescribe_success (k : Bool) (i : Nat) (f : FileInfo) :
    (processImageDescribe k i f).1.success = validFile f := by
  unfold processImageDescribe validFile
  repeat' split
  all_goals simp_all

theorem processImageDescribe_source_fallback (i : Nat) (f : FileInfo)
    (hv : validFile f = true) (hapi : f.apiOutcome = false) :
    (processImageDescribe true i f).1.source = "fallback" := by
  unfold processImageDescribe
  unfold validFile at hv
  simp only [Bool.and_eq_true, Bool.not_eq_true', decide_eq_false_iff_not] at hv
  simp [hv.1, hv.2, hapi]

theorem processImageDescribe_trace (k : Bool) (i : Nat) (f : FileInfo) :
    (processImageDescribe k i f).2 = []
      ∨ (processImageDescribe k i f).2 = [Ev.apiCall i] := by
  unfold processImageDescribe
  repeat' split
  all_goals simp

theorem processImageStream_success (k : Bool) (i : Nat) (f : FileInfo) :
    (processImageStream k i f).1.success = (validFile f && k && f.apiOutcome) := by
  unfold processImageStream validFile
  repeat' split
  all_goals simp_all

theorem serviceProcessImage_success (k : Bool) (i : Nat) (f : FileInfo) :
    (serviceProcessImage k i f).1.success = (validFile f && k && f.apiOutcome) := by
  unfold serviceProcessImage validFile
  repeat' split
  all_goals simp_all

theorem serviceProcessImage_trace (k : Bool) (i : Nat) (f : FileInfo) :
    (serviceProcessImage k i f).2 = []
      ∨ (serviceProcessImage k i f).2 = [Ev.apiCall i] := by
  unfold serviceProcessImage
  repeat' split
  all_goals simp

theorem deductEvents_append (t1 t2 : List Ev) :
    deductEvents (t1 ++ t2) = deductEvents t1 ++ deductEvents t2 := by
  simp [deductEvents, List.filter_append]

theorem deductEvents_flatten_nil (ts : List (List Ev))
    (h : ∀ t ∈ ts, deductEvents t = []) : deductEvents ts.flatten = [] := by
  induction ts with
  | nil => simp [deductEvents]
  | cons t rest ih =>
    rw [List.flatten_cons, deductEvents_append]
    rw [h t (List.mem_cons_self t rest), ih (fun t' ht' => h t' (List.mem_cons_of_mem t ht'))]
    rfl

theorem deductedTotal_append (t1 t2 : List Ev) :
    deductedTotal (t1 ++ t2) = deductedTotal t1 + deductedTotal t2 := by
  simp [deductedTotal, List.filterMap_append]

theorem deductedTotal_eq_deductEvents (t : List Ev) :
    deductedTotal t = deductedTotal (deductEvents t) := by
  induction t with
  | nil => rfl
  | cons e rest ih =>
    cases e <;> simp [deductedTotal, deductEvents, List.filterMap_cons,
      List.filter_cons] at ih ⊢ <;> omega

theorem deductedTotal_of_results (rs : List ProcessResult) :
    deductedTotal (rs.filterMap
      (fun r => if r.success then some (Ev.deductCall r.index 1) else none))
      = (countSucc rs : Int) := by
  induction rs with
  | nil => simp [deductedTotal, countSucc]
  | cons r rest ih =>
    by_cases hs : r.success = true
    · simp only [List.filterMap_cons, hs, if_true]
      have hcons : ∀ (t : List Ev) (j : Nat) (a : Int),
          deductedTotal (Ev.deductCall j a :: t) = a + deductedTotal t := by
        intro t j a
        simp [deductedTotal]
      rw [hcons, ih]
      simp only [countSucc, List.filter_cons, hs, if_true, List.length_cons]
      push_cast
      ring
    · have hs' : r.success = false := by simpa using hs
      simp only [List.filterMap_cons, hs', Bool.false_eq_true, if_false]
      rw [ih]
      simp [countSucc, List.filter_cons, hs']

theorem describe_proc_trace_no_deduct (k : Bool) (files : List FileInfo) :
    deductEvents ((describeOuts k files).map (fun o => o.2)).flatten = [] := by
  apply deductEvents_flatten_nil
  intro t ht
  simp only [describeOuts, List.map_map, List.mem_map] at ht
  obtain ⟨p, _, hp⟩ := ht
  rcases processImageDescribe_trace k p.1 p.2 with h | h <;>
    simp [← hp, Function.comp, h, deductEvents]

theorem service_proc_trace_no_deduct (k : Bool) (files : List FileInfo) :
    deductEvents ((bwcOuts k files).map (fun o => o.2)).flatten = [] := by
  apply deductEvents_flatten_nil
  intro t ht
  rw [bwcOuts, processFilesConcurrently_eq] at ht
  simp only [List.map_map, List.mem_map] at ht
  obtain ⟨p, _, hp⟩ := ht
  rcases serviceProcessImage_trace k p.1 p.2 with h | h <;>
    simp [← hp, Function.comp, h, deductEvents]

theorem countSucc_le (rs : List ProcessResult) : countSucc rs ≤ rs.length :=
  List.length_filter_le _ _

theorem describePOST_cases (k : Bool) (c : Int) (files : List FileInfo) :
    (describePOST k c files = ⟨400, some "No image file(s) provided", [], [], c⟩
      ∧ files.isEmpty = true)
    ∨ (describePOST k c files = ⟨402, some "Insufficient credits", [], [], c⟩
      ∧ c < (files.length : Int))
    ∨ ((describePOST k c files).status = 200
      ∧ (describePOST k c files).results = (describeOuts k files).map (fun o => o.1)
      ∧ (describePOST k c files).trace
          = ((describeOuts k files).map (fun o => o.2)).flatten
            ++ (if 0 < countSucc ((describeOuts k files).map (fun o => o.1))
                then [Ev.deductCall 0
                  (countSucc ((describeOuts k files).map (fun o => o.1)) : Int)]
                else [])
      ∧ (describePOST k c files).creditsAfter
          = c - (countSucc ((describeOuts k files).map (fun o => o.1)) : Int)
      ∧ ¬ c < (files.length : Int)) := by
  by_cases h1 : files.isEmpty
  · exact Or.inl ⟨by simp [describePOST, h1], h1⟩
  · by_cases h2 : c < (files.length : Int)
    · exact Or.inr (Or.inl ⟨by simp [describePOST, h1, h2], h2⟩)
    · refine Or.inr (Or.inr ?_)
      by_cases h3 : 0 < countSucc ((describeOuts k files).map (fun o => o.1))
      · refine ⟨?_, ?_, ?_, ?_, h2⟩ <;> simp [describePOST, h1, h2, h3]
      · have h0 : countSucc ((describeOuts k files).map (fun o => o.1)) = 0 := by
          omega
        refine ⟨?_, ?_, ?_, ?_, h2⟩ <;> simp [describePOST, h1, h2, h3, h0]

theorem bwcPOST_cases (k : Bool) (c : Int) (files : List FileInfo) :
    (bulkWithCreditsPOST k c files
        = ⟨400, some "No image files provided", [], [], c⟩
      ∧ files.isEmpty = true)
    ∨ (bulkWithCreditsPOST k c files
        = ⟨402, some "Insufficient credits", [], [], c⟩
      ∧ c < (files.length : Int))
    ∨ ((bulkWithCreditsPOST k c files).status = 200
      ∧ (bulkWithCreditsPOST k c files).results
          = (bwcOuts k files).map (fun o => o.1)
      ∧ (bulkWithCreditsPOST k c files).trace
          = ((bwcOuts k files).map (fun o => o.2)).flatten
            ++ (if 0 < countSucc ((bwcOuts k files).map (fun o => o.1))
                then [Ev.deductCall 0
                  (countSucc ((bwcOuts k files).map (fun o => o.1)) : Int)]
                else [])
      ∧ (bulkWithCreditsPOST k c files).creditsAfter
          = c - (countSucc ((bwcOuts k files).map (fun o => o.1)) : Int)
      ∧ ¬ c < (files.length : Int)) := by
  by_cases h1 : files.isEmpty
  · exact Or.inl ⟨by simp [bulkWithCreditsPOST, h1], h1⟩
  · by_cases h2 : c < (files.length : Int)
    · exact Or.inr (Or.inl ⟨by simp [bulkWithCreditsPOST, h1, h2], h2⟩)
    · refine Or.inr (Or.inr ?_)
      by_cases h3 : 0 < countSucc ((bwcOuts k files).map (fun o => o.1))
      · refine ⟨?_, ?_, ?_, ?_, h2⟩ <;> simp [bulkWithCreditsPOST, h1, h2, h3]
      · have h0 : countSucc ((bwcOuts k files).map (fun o => o.1)) = 0 := by
          omega
        refine ⟨?_, ?_, ?_, ?_, h2⟩ <;>
          simp [bulkWithCreditsPOST, h1, h2, h3, h0]

theorem describeOuts_results_length (k : Bool) (files : List FileInfo) :
    ((describeOuts k files).map (fun o => o.1)).length = files.length := by
  simp [describeOuts]

theorem bwcOuts_results_length (k : Bool) (files : List FileInfo) :
    ((bwcOuts k files).map (fun o => o.1)).length = files.length := by
  rw [bwcOuts, processFilesConcurrently_eq]
  simp

theorem describePOST_deductedTotal (k : Bool) (c : Int) (files : List FileInfo) :
    deductedTotal (describePOST k c files).trace
      = (countSucc (describePOST k c files).results : Int) := by
  rcases describePOST_cases k c files with ⟨he, _⟩ | ⟨he, _⟩ | ⟨_, hr, ht, _, _⟩
  · rw [he]; simp [deductedTotal, countSucc]
  · rw [he]; simp [deductedTotal, countSucc]
  · rw [hr, ht, deductedTotal_append]
    rw [deductedTotal_eq_deductEvents
      (((describeOuts k files).map (fun o => o.2)).flatten),
      describe_proc_trace_no_deduct]
    by_cases h3 : 0 < countSucc ((describeOuts k files).map (fun o => o.1))
    · simp [h3, deductedTotal]
    · simp [h3, deductedTotal]
      omega

theorem bwcPOST_deductedTotal (k : Bool) (c : Int) (files : List FileInfo) :
    deductedTotal (bulkWithCreditsPOST k c files).trace
      = (countSucc (bulkWithCreditsPOST k c files).results : Int) := by
  rcases bwcPOST_cases k c files with ⟨he, _⟩ | ⟨he, _⟩ | ⟨_, hr, ht, _, _⟩
  · rw [he]; simp [deductedTotal, countSucc]
  · rw [he]; simp [deductedTotal, countSucc]
  · rw [hr, ht, deductedTotal_append]
    rw [deductedTotal_eq_deductEvents
      (((bwcOuts k files).map (fun o => o.2)).flatten),
      service_proc_trace_no_deduct]
    by_cases h3 : 0 < countSucc ((bwcOuts k files).map (fun o => o.1))
    · simp [h3, deductedTotal]
    · simp [h3, deductedTotal]
      omega

theorem describePOST_countSucc_le (k : Bool) (c : Int) (files : List FileInfo) :
    countSucc (describePOST k c files).results ≤ files.length := by
  rcases describePOST_cases k c files with ⟨he, _⟩ | ⟨he, _⟩ | ⟨_, hr, _, _, _⟩
  · rw [he]; simp [countSucc]
  · rw [he]; simp [countSucc]
  · rw [hr]
    calc countSucc ((describeOuts k files).map (fun o => o.1))
        ≤ ((describeOuts k files).map (fun o => o.1)).length := countSucc_le _
      _ = files.length := describeOuts_results_length k files

theorem bwcPOST_countSucc_le (k : Bool) (c : Int) (files : List FileInfo) :
    countSucc (bulkWithCreditsPOST k c files).results ≤ files.length := by
  rcases bwcPOST_cases k c files with ⟨he, _⟩ | ⟨he, _⟩ | ⟨_, hr, _, _, _⟩
  · rw [he]; simp [countSucc]
  · rw [he]; simp [countSucc]
  · rw [hr]
    calc countSucc ((bwcOuts k files).map (fun o => o.1))
        ≤ ((bwcOuts k files).map (fun o => o.1)).length := countSucc_le _
      _ = files.length := bwcOuts_results_length k files

theorem describePOST_results_get (k : Bool) (c : Int) (files : List FileInfo)
    (i : Nat) (f : FileInfo)
    (h200 : (describePOST k c files).status = 200)
    (hf : files[i]? = some f) :
    (describePOST k c files).results[i]?
      = some (processImageDescribe k i f).1 := by
  rcases describePOST_cases k c files with ⟨he, _⟩ | ⟨he, _⟩ | ⟨_, hr, _, _, _⟩
  · rw [he] at h200; simp at h200
  · rw [he] at h200; simp at h200
  · rw [hr]
    simp only [describeOuts, List.getElem?_map, List.getElem?_enum, hf,
      Option.map_some]
    rfl

theorem bwcPOST_results_get (k : Bool) (c : Int) (files : List FileInfo)
    (i : Nat) (f : FileInfo)
    (h200 : (bulkWithCreditsPOST k c files).status = 200)
    (hf : files[i]? = some f) :
    (bulkWithCreditsPOST k c files).results[i]?
      = some (serviceProcessImage k i f).1 := by
  rcases bwcPOST_cases k c files with ⟨he, _⟩ | ⟨he, _⟩ | ⟨_, hr, _, _, _⟩
  · rw [he] at h200; simp at h200
  · rw [he] at h200; simp at h200
  · rw [hr, bwcOuts, processFilesConcurrently_eq]
    simp only [List.getElem?_map, List.getElem?_enum, hf, Option.map_some]
    rfl

theorem C3_deductCredits (db : DB) (uid : String) (a c : Int) :
    ((findU db.users uid = none ∨ (findU db.users uid = some c ∧ c < a)) →
      deductCredits db uid a = .error "Insufficient credits"
        ∧ runOp db (.deduct uid a) = db)
    ∧ (findU db.users uid = some c → a ≤ c →
        deductCredits db uid a
          = .ok [[.setCredits uid (c - a),
                  .insertTxn ⟨uid, -a, .IMAGE_DESCRIPTION⟩]]
        ∧ runOp db (.deduct uid a)
          = ⟨setU db.users uid (c - a),
             db.txns ++ [⟨uid, -a, .IMAGE_DESCRIPTION⟩], db.reqs⟩) := by
  constructor
  · intro h
    rcases h with h | ⟨hc, hlt⟩
    · exact runOp_deduct_insufficient db uid a (Or.inl h)
    · exact runOp_deduct_insufficient db uid a (Or.inr ⟨c, hc, hlt⟩)
  · intro hc hle
    have hnlt : ¬ c < a := not_lt.mpr hle
    exact ⟨by simp [deductCredits, hc, hnlt], runOp_deduct db uid a c hc hnlt⟩

theorem C3_deductCredits_witness :
    deductCredits dbW "u1" 2
        = .ok [[.setCredits "u1" (3 - 2),
                .insertTxn ⟨"u1", -2, .IMAGE_DESCRIPTION⟩]]
      ∧ runOp dbW (.deduct "u1" 2)
        = ⟨setU dbW.users "u1" (3 - 2),
           dbW.txns ++ [⟨"u1", -2, .IMAGE_DESCRIPTION⟩], dbW.reqs⟩ :=
  (C3_deductCredits dbW "u1" 2 3).2 (by decide) (by decide)

theorem C1_counterexample :
    ledgerBalanced dbW = true
    ∧ opGroups dbW (.adminAdjust "u1" (some 10))
        = [[.insertTxn ⟨"u1", 10 - 3, .ADMIN_ADJUSTMENT⟩], [.setCredits "u1" 10]]
    ∧ ledgerBalanced
        (applyGroups dbW ((opGroups dbW (.adminAdjust "u1" (some 10))).take 1))
        = false :=
  ⟨by decide, by decide, by decide⟩

theorem C1_ledger_invariant (db : DB) (ops : List CreditOp)
    (h : ledgerBalanced db = true) :
    ledgerBalanced (runOps db ops) = true
    ∧ (∀ uid a gs, compileOp db (.deduct uid a) = .ok gs → gs.length = 1)
    ∧ (∀ uid a ty gs, compileOp db (.add uid a ty) = .ok gs → gs.length = 1)
    ∧ (∀ rid act gs, compileOp db (.payment rid act) = .ok gs → gs.length = 1) := by
  refine ⟨ledgerBalanced_runOps db ops h, ?_, ?_, ?_⟩
  · intro uid a gs hgs
    cases hf : findU db.users uid with
    | none => simp [compileOp, deductCredits, hf] at hgs
    | some c0 =>
      by_cases hlt : c0 < a
      · simp [compileOp, deductCredits, hf, hlt] at hgs
      · simp [compileOp, deductCredits, hf, hlt] at hgs
        subst hgs
        rfl
  · intro uid a ty gs hgs
    cases hf : findU db.users uid with
    | none => simp [compileOp, addCredits, hf] at hgs
    | some c0 =>
      simp [compileOp, addCredits, hf] at hgs
      subst hgs
      rfl
  · intro rid act gs hgs
    cases hf : findReq db.reqs rid with
    | none => simp [compileOp, processPayment, hf] at hgs
    | some pr =>
      by_cases hst : pr.status = PaymentStatus.PENDING
      · cases act <;> simp [compileOp, processPayment, hf, hst] at hgs <;>
          subst hgs <;> rfl
      · simp [compileOp, processPayment, hf, hst] at hgs

theorem C1_ledger_invariant_witness :
    ledgerBalanced (runOps dbW
      [.add "u1" 5 .PURCHASE, .deduct "u1" 2, .payment "r1" .APPROVED,
       .adminAdjust "u1" (some 0)]) = true :=
  (C1_ledger_invariant dbW
    [.add "u1" 5 .PURCHASE, .deduct "u1" 2, .payment "r1" .APPROVED,
     .adminAdjust "u1" (some 0)] (by decide)).1

theorem C4_payment_once (db : DB) (rid : String) (pr : PaymentRequestRow)
    (c : Int) (act : PaymentAction)
    (hfind : findReq db.reqs rid = some pr) :
    (pr.status ≠ .PENDING →
      processPayment db rid act
          = .error "Payment request has already been processed"
        ∧ runOp db (.payment rid act) = db)
    ∧ (pr.status = .PENDING →
        findReq (runOp db (.payment rid act)).reqs rid
            = some { pr with status := statusOf act }
        ∧ statusOf act ≠ .PENDING
        ∧ (∀ act', processPayment (runOp db (.payment rid act)) rid act'
            = .error "Payment request has already been processed")
        ∧ (∀ act', runOp (runOp db (.payment rid act)) (.payment rid act')
            = runOp db (.payment rid act))
        ∧ (act = .APPROVED → findU db.users pr.userId = some c →
            compileOp db (.payment rid .APPROVED)
              = .ok [[.setStatus rid .APPROVED,
                      .incCredits pr.userId pr.creditsRequested,
                      .insertTxn ⟨pr.userId, pr.creditsRequested, .PURCHASE⟩]]
            ∧ findU (runOp db (.payment rid .APPROVED)).users pr.userId
                = some (c + pr.creditsRequested)
            ∧ (runOp db (.payment rid .APPROVED)).txns
                = db.txns ++ [⟨pr.userId, pr.creditsRequested, .PURCHASE⟩])) := by
  constructor
  · intro hst
    exact runOp_payment_processed db rid pr act hfind hst
  · intro hst
    have hreqs' : findReq (runOp db (.payment rid act)).reqs rid
        = some { pr with status := statusOf act } := by
      cases act with
      | APPROVED =>
        cases hu : findU db.users pr.userId with
        | none =>
          simp [runOp, compileOp, processPayment, hfind, hst, applyGroups,
            applyGroup, applyWrite, hu, findReq_setReqStatus_self, statusOf]
        | some c0 =>
          simp [runOp, compileOp, processPayment, hfind, hst, applyGroups,
            applyGroup, applyWrite, hu, findReq_setReqStatus_self, statusOf]
      | REJECTED =>
        simp [runOp, compileOp, processPayment, hfind, hst, applyGroups,
          applyGroup, applyWrite, findReq_setReqStatus_self, statusOf]
    have hterm : statusOf act ≠ PaymentStatus.PENDING := by
      cases act <;> simp [statusOf]
    refine ⟨hreqs', hterm, ?_, ?_, ?_⟩
    · intro act'
      exact (runOp_payment_processed _ rid _ act' hreqs' hterm).1
    · intro act'
      exact (runOp_payment_processed _ rid _ act' hreqs' hterm).2
    · intro hact hc
      subst hact
      refine ⟨by simp [compileOp, processPayment, hfind, hst], ?_, ?_⟩
      · rw [runOp_payment_approved db rid pr c hfind hst hc]
        simp only
        rw [findU_setU_self, hc]
        simp
      · rw [runOp_payment_approved db rid pr c hfind hst hc]

theorem C4_payment_once_witness :
    findReq (runOp dbW (.payment "r1" .APPROVED)).reqs "r1"
        = some ⟨"r1", "u1", 10, .APPROVED⟩
      ∧ (∀ act', processPayment (runOp dbW (.payment "r1" .APPROVED)) "r1" act'
          = .error "Payment request has already been processed")
      ∧ findU (runOp dbW (.payment "r1" .APPROVED)).users "u1"
          = some (3 + 10) := by
  have h := (C4_payment_once dbW "r1" ⟨"r1", "u1", 10, .PENDING⟩ 3 .APPROVED
    (by decide)).2 (by decide)
  exact ⟨h.1, h.2.2.1, (h.2.2.2.2 rfl (by decide)).2.1⟩

theorem C9_counterexample :
    usersNonneg dbW = true
    ∧ ledgerBalanced dbW = true
    ∧ findU (runOp dbW (.adminAdjust "u1" (some (-5)))).users "u1" = some (-5)
    ∧ usersNonneg (runOp dbW (.adminAdjust "u1" (some (-5)))) = false :=
  ⟨by decide, by decide, by decide, by decide⟩

theorem C9_nonneg (db : DB) (uid : String) (a : Int)
    (ty : CreditTransactionType) (rid : String) (act : PaymentAction)
    (hn : usersNonneg db = true) :
    usersNonneg (runOp db (.deduct uid a)) = true
    ∧ (0 ≤ a → usersNonneg (runOp db (.add uid a ty)) = true)
    ∧ (reqsNonneg db = true → usersNonneg (runOp db (.payment rid act)) = true)
    ∧ (∀ op gs, compileOp db op = .ok gs →
        groupsBalWrites gs = groupsTxnInserts gs) :=
  ⟨usersNonneg_deduct db uid a hn,
   fun ha => usersNonneg_add db uid a ty ha hn,
   fun hr => usersNonneg_payment db rid act hr hn,
   fun op gs hgs => opPairsLedger db op gs hgs⟩

theorem C9_nonneg_witness :
    usersNonneg (runOp dbW (.deduct "u1" 2)) = true
    ∧ usersNonneg (runOp dbW (.add "u1" 2 .PURCHASE)) = true
    ∧ usersNonneg (runOp dbW (.payment "r1" .APPROVED)) = true := by
  have h := C9_nonneg dbW "u1" 2 .PURCHASE "r1" .APPROVED (by decide)
  exact ⟨h.1, h.2.1 (by decide), h.2.2.1 (by decide)⟩

theorem describePOST_status_200 (k : Bool) (c : Int) (files : List FileInfo)
    (h1 : files.isEmpty = false) (h2 : ¬ c < (files.length : Int)) :
    (describePOST k c files).status = 200 := by
  simp only [describePOST, h1, Bool.false_eq_true, if_false, h2]
  split <;> rfl

theorem bwcPOST_status_200 (k : Bool) (c : Int) (files : List FileInfo)
    (h1 : files.isEmpty = false) (h2 : ¬ c < (files.length : Int)) :
    (bulkWithCreditsPOST k c files).status = 200 := by
  simp only [bulkWithCreditsPOST, h1, Bool.false_eq_true, if_false, h2]
  split <;> rfl

theorem bulkPOST_deductedTotal (k : Bool) (c : Int) (files : List FileInfo) :
    deductedTotal (bulkPOST k c files).trace
      = (countSucc (bulkPOST k c files).results : Int) := by
  by_cases h1 : files.isEmpty
  · simp [bulkPOST, h1, deductedTotal, countSucc]
  · by_cases h2 : c < (files.length : Int)
    · simp [bulkPOST, h1, h2, deductedTotal, countSucc]
    · have hres : (bulkPOST k c files).results = (bulkLoop k c 0 files).results := by
        simp [bulkPOST, h1, h2]
      have htr : (bulkPOST k c files).trace = (bulkLoop k c 0 files).trace := by
        simp [bulkPOST, h1, h2]
      rw [hres, htr, deductedTotal_eq_deductEvents, bulkLoop_deductEvents,
        deductedTotal_of_results]

theorem bulkPOST_countSucc_le (k : Bool) (c : Int) (files : List FileInfo) :
    countSucc (bulkPOST k c files).results ≤ files.length := by
  by_cases h1 : files.isEmpty
  · simp [bulkPOST, h1, countSucc]
  · by_cases h2 : c < (files.length : Int)
    · simp [bulkPOST, h1, h2, countSucc]
    · have hres : (bulkPOST k c files).results = (bulkLoop k c 0 files).results := by
        simp [bulkPOST, h1, h2]
      rw [hres]
      exact le_trans (countSucc_le _) (bulkLoop_length_le k c 0 files)

theorem C2_counterexample :
    fileApiFail.apiOutcome = false
    ∧ Ev.apiCall 0 ∈ (describePOST true 5 [fileApiFail]).trace
    ∧ deductedTotal (describePOST true 5 [fileApiFail]).trace = 1
    ∧ (describePOST true 5 [fileApiFail]).results.map (fun r => r.source)
        = ["fallback"] :=
  ⟨rfl, by decide, by decide, by decide⟩

theorem C2_deductions (k : Bool) (c : Int) (files : List FileInfo)
    (i : Nat) (f : FileInfo) :
    deductedTotal (describePOST k c files).trace
        = (countSucc (describePOST k c files).results : Int)
    ∧ countSucc (describePOST k c files).results ≤ files.length
    ∧ deductedTotal (bulkWithCreditsPOST k c files).trace
        = (countSucc (bulkWithCreditsPOST k c files).results : Int)
    ∧ countSucc (bulkWithCreditsPOST k c files).results ≤ files.length
    ∧ deductedTotal (bulkPOST k c files).trace ≤ (files.length : Int)
    ∧ ((bulkWithCreditsPOST k c files).status = 200 → files[i]? = some f →
        (bulkWithCreditsPOST k c files).results[i]?
          = some (serviceProcessImage k i f).1)
    ∧ (serviceProcessImage k i f).1.success = (validFile f && k && f.apiOutcome)
    ∧ ((describePOST k c files).status = 200 → files[i]? = some f →
        (describePOST k c files).results[i]?
          = some (processImageDescribe k i f).1)
    ∧ (processImageDescribe k i f).1.success = validFile f
    ∧ (validFile f = true → f.apiOutcome = false →
        (processImageDescribe true i f).1.source = "fallback") := by
  refine ⟨describePOST_deductedTotal k c files,
    describePOST_countSucc_le k c files,
    bwcPOST_deductedTotal k c files,
    bwcPOST_countSucc_le k c files,
    ?_,
    fun h200 hf => bwcPOST_results_get k c files i f h200 hf,
    serviceProcessImage_success k i f,
    fun h200 hf => describePOST_results_get k c files i f h200 hf,
    processImageDescribe_success k i f,
    fun hv hapi => processImageDescribe_source_fallback i f hv hapi⟩
  rw [bulkPOST_deductedTotal]
  exact_mod_cast bulkPOST_countSucc_le k c files

theorem C2_deductions_witness :
    (describePOST true 5 [fileOk]).results[0]?
        = some (processImageDescribe true 0 fileOk).1
    ∧ (bulkWithCreditsPOST true 5 [fileOk]).results[0]?
        = some (serviceProcessImage true 0 fileOk).1
    ∧ (processImageDescribe true 0 fileApiFail).1.source = "fallback" := by
  have h := C2_deductions true 5 [fileOk] 0 fileOk
  have h' := C2_deductions true 5 [fileApiFail] 0 fileApiFail
  exact ⟨h.2.2.2.2.2.2.2.1
           (describePOST_status_200 true 5 [fileOk] (by decide) (by decide))
           (by decide),
         h.2.2.2.2.2.1
           (bwcPOST_status_200 true 5 [fileOk] (by decide) (by decide))
           (by decide),
         h'.2.2.2.2.2.2.2.2.2 (by decide) (by decide)⟩

theorem C5_sequential (k : Bool) (c : Int) (files : List FileInfo)
    (j : Nat) (b : Int) :
    (bulkLoop k c 0 files).results.map (fun r => r.index)
        = List.range' 0 (bulkLoop k c 0 files).results.length
    ∧ (bulkLoop k c 0 files).results.length ≤ files.length
    ∧ deductEvents (bulkLoop k c 0 files).trace
        = (bulkLoop k c 0 files).results.filterMap
            (fun r => if r.success then some (Ev.deductCall r.index 1) else none)
    ∧ (bulkLoop k c 0 files).creditsAfter
        = c - (countSucc (bulkLoop k c 0 files).results : Int)
    ∧ (Ev.creditCheck j b ∈ (bulkLoop k c 0 files).trace → b < 1 →
        (bulkLoop k c 0 files).results.length = j + 1
        ∧ ∀ j', j ≤ j' → Ev.apiCall j' ∉ (bulkLoop k c 0 files).trace) := by
  refine ⟨bulkLoop_indices k c 0 files, bulkLoop_length_le k c 0 files,
    bulkLoop_deductEvents k c 0 files, bulkLoop_credits k c 0 files, ?_⟩
  intro hj hb
  have hlen := bulkLoop_stop k c 0 files j b hj hb
  simp only [Nat.zero_add] at hlen
  refine ⟨hlen, ?_⟩
  intro j' hjj hmem
  obtain ⟨b', hb', hb1⟩ := bulkLoop_apiCall_balance k c 0 files j' hmem
  have hub := bulkLoop_trace_ub k c 0 files _ hmem
  simp only [evIdx, Nat.zero_add] at hub
  have : j' = j := by omega
  subst this
  have := bulkLoop_check_unique k c 0 files j' b b' hj hb'
  omega

theorem C5_sequential_witness :
    Ev.creditCheck 1 0 ∈ (bulkLoop true 1 0 [fileOk, fileOk]).trace
    ∧ (bulkLoop true 1 0 [fileOk, fileOk]).results.length = 1 + 1
    ∧ ¬ Ev.apiCall 1 ∈ (bulkLoop true 1 0 [fileOk, fileOk]).trace := by
  have h := (C5_sequential true 1 [fileOk, fileOk] 1 0).2.2.2.2
    (by decide) (by decide)
  exact ⟨by decide, h.1, h.2 1 (le_refl 1)⟩

theorem C6_concurrent (k : Bool) (c : Int) (files : List FileInfo)
    (batch window : List (Nat × FileInfo)) :
    processFilesConcurrently k files.enum
        = files.enum.map (fun p => serviceProcessImage k p.1 p.2)
    ∧ (batch ∈ chunks 10 files.enum → batch.length ≤ 10)
    ∧ (window ∈ chunks 5 batch → window.length ≤ 5)
    ∧ ((bulkWithCreditsPOST k c files).status = 200 →
        (bulkWithCreditsPOST k c files).results.length = files.length
        ∧ deductEvents (bulkWithCreditsPOST k c files).trace
            = (if 0 < countSucc (bulkWithCreditsPOST k c files).results
               then [Ev.deductCall 0
                 (countSucc (bulkWithCreditsPOST k c files).results : Int)]
               else [])
        ∧ (bulkWithCreditsPOST k c files).trace
            = ((bwcOuts k files).map (fun o => o.2)).flatten
              ++ deductEvents (bulkWithCreditsPOST k c files).trace) := by
  refine ⟨processFilesConcurrently_eq k files.enum, ?_, ?_, ?_⟩
  · intro hb
    have := chunks_length_le 10 files.enum batch hb
    omega
  · intro hw
    have := chunks_length_le 5 batch window hw
    omega
  · intro h200
    rcases bwcPOST_cases k c files with ⟨he, _⟩ | ⟨he, _⟩ | ⟨_, hr, ht, _, _⟩
    · rw [he] at h200; simp at h200
    · rw [he] at h200; simp at h200
    · have hded : deductEvents (bulkWithCreditsPOST k c files).trace
          = (if 0 < countSucc (bulkWithCreditsPOST k c files).results
             then [Ev.deductCall 0
               (countSucc (bulkWithCreditsPOST k c files).results : Int)]
             else []) := by
        rw [ht, hr, deductEvents_append, service_proc_trace_no_deduct]
        by_cases h3 : 0 < countSucc ((bwcOuts k files).map (fun o => o.1))
        · simp [h3, deductEvents]
        · simp [h3, deductEvents]
      refine ⟨?_, hded, ?_⟩
      · rw [hr]
        exact bwcOuts_results_length k files
      · rw [hded, hr, ht]

theorem C6_concurrent_witness :
    (bulkWithCreditsPOST true 5 [fileOk, fileOk, fileOk]).results.length = 3
    ∧ (List.enum [fileOk, fileOk, fileOk]).length ≤ 10 := by
  have h := C6_concurrent true 5 [fileOk, fileOk, fileOk]
    (List.enum [fileOk, fileOk, fileOk]) (List.enum [fileOk, fileOk, fileOk])
  exact ⟨(h.2.2.2 (bwcPOST_status_200 true 5 [fileOk, fileOk, fileOk]
      (by decide) (by decide))).1,
    by decide⟩

theorem C7_insufficient (k : Bool) (c : Int) (files : List FileInfo)
    (hne : files ≠ []) (hc : c < (files.length : Int)) :
    (bulkPOST k c files).status = 402
    ∧ (bulkPOST k c files).results = []
    ∧ (bulkPOST k c files).trace = []
    ∧ (bulkPOST k c files).creditsAfter = c
    ∧ (bulkWithCreditsPOST k c files).status = 402
    ∧ (bulkWithCreditsPOST k c files).results = []
    ∧ (bulkWithCreditsPOST k c files).trace = []
    ∧ (bulkWithCreditsPOST k c files).creditsAfter = c := by
  have h1 : files.isEmpty = false := by
    simpa [List.isEmpty_iff] using hne
  refine ⟨?_, ?_, ?_, ?_, ?_, ?_, ?_, ?_⟩ <;>
    simp [bulkPOST, bulkWithCreditsPOST, h1, hc]

theorem C7_insufficient_witness :
    (bulkPOST true 0 [fileOk]).status = 402
    ∧ (bulkWithCreditsPOST true 0 [fileOk]).trace = [] := by
  have h := C7_insufficient true 0 [fileOk] (by decide) (by decide)
  exact ⟨h.1, h.2.2.2.2.2.2.1⟩

theorem C8_no_api (k : Bool) (c : Int) (files : List FileInfo) (j : Nat) :
    (files ≠ [] → c < (files.length : Int) → (bulkPOST k c files).trace = [])
    ∧ (Ev.apiCall j ∈ (bulkPOST k c files).trace →
        ∃ b, Ev.creditCheck j b ∈ (bulkPOST k c files).trace ∧ 1 ≤ b) := by
  constructor
  · intro hne hc
    have h1 : files.isEmpty = false := by
      simpa [List.isEmpty_iff] using hne
    simp [bulkPOST, h1, hc]
  · intro hmem
    by_cases h1 : files.isEmpty
    · simp [bulkPOST, h1] at hmem
    · by_cases h2 : c < (files.length : Int)
      · simp [bulkPOST, h1, h2] at hmem
      · have htr : (bulkPOST k c files).trace = (bulkLoop k c 0 files).trace := by
          simp [bulkPOST, h1, h2]
        rw [htr] at hmem ⊢
        exact bulkLoop_apiCall_balance k c 0 files j hmem

theorem C8_no_api_witness :
    (bulkPOST true 0 [fileOk]).trace = []
    ∧ ∃ b, Ev.creditCheck 0 b ∈ (bulkPOST true 1 [fileOk]).trace ∧ 1 ≤ b :=
  ⟨(C8_no_api true 0 [fileOk] 0).1 (by decide) (by decide),
   (C8_no_api true 1 [fileOk] 0).2 (by decide)⟩

theorem C10_file_limits
    (proc : List FileInfo → List ProcessResult × List Ev × Int)
    (c : Int) (images : List FileInfo) :
    (100 < images.length →
      (bulkWithCreditsV1POST proc c images).status = 400
      ∧ (bulkWithCreditsV1POST proc c images).errorMsg
          = some "Too many files. Maximum 100 files allowed per batch."
      ∧ (bulkWithCreditsV1POST proc c images).results = []
      ∧ (bulkWithCreditsV1POST proc c images).trace = [])
    ∧ (images = [] →
      (bulkWithCreditsV1POST proc c images).status = 400
      ∧ (bulkWithCreditsV1POST proc c images).errorMsg
          = some "No images provided"
      ∧ (bulkWithCreditsV1POST proc c images).results = []
      ∧ (bulkWithCreditsV1POST proc c images).trace = []) := by
  constructor
  · intro hlen
    have h1 : images.isEmpty = false := by
      cases images with
      | nil => simp at hlen
      | cons a l => simp
    have h2 : images.length > 100 := hlen
    refine ⟨?_, ?_, ?_, ?_⟩ <;> simp [bulkWithCreditsV1POST, h1, h2]
  · intro he
    subst he
    refine ⟨?_, ?_, ?_, ?_⟩ <;> simp [bulkWithCreditsV1POST]

theorem C10_file_limits_witness :
    (bulkWithCreditsV1POST (fun _ => ([], [], 0)) 0
        (List.replicate 101 fileOk)).status = 400
    ∧ (bulkWithCreditsV1POST (fun _ => ([], [], 0)) 0
        (List.replicate 101 fileOk)).errorMsg
        = some "Too many files. Maximum 100 files allowed per batch."
    ∧ (bulkWithCreditsV1POST (fun _ => ([], [], 0)) 0 ([] : List FileInfo)).status
        = 400 := by
  have h1 := (C10_file_limits (fun _ => ([], [], 0)) 0
    (List.replicate 101 fileOk)).1 (by decide)
  have h2 := (C10_file_limits (fun _ => ([], [], 0)) 0 ([] : List FileInfo)).2 rfl
  exact ⟨h1.1, h1.2.1, h2.1⟩

end ImageDescribe
